import Mathlib

/-!
Verification development for the sphere-resonance Lamb-equation solver
(`LambEqnSolver.py`).

The Python program has two parts:

* an evaluator for the characteristic (Lamb) equation of a vibrating
  elastic sphere, `lambEqn`, built from closed-form spherical Bessel
  functions `besselFn` of orders 0..3, together with its absolute value
  `absLambEqn`; and
* a scanning loop that walks the angular frequency upward in fixed steps,
  detects sign changes of `lambEqn`, filters out discontinuity artifacts,
  and refines each accepted crossing with a bounded minimizer on
  `absLambEqn`.

The evaluator is embedded over the real numbers.  Python run-time failures
are made explicit in an error type `Err`:

* `Err.zeroDivision` models `ZeroDivisionError` (a float division whose
  denominator is exactly zero raises in Python);
* `Err.unboundLocal` models the `UnboundLocalError` raised when
  `besselFn`'s `match` statement falls through for an order outside 0..3,
  leaving the local `result` unbound;
* `Err.unsupportedMode` models the explicit
  `raise Exception("Solutions only implemented for modes <= 2")` in the
  fall-through arm of `lambEqn`'s mode dispatch.

A float value that may be the IEEE-754 NaN (the mode-2 branch returns
`numpy.NAN` when a Bessel denominator is zero) is modelled as `Option`:
`none` is NaN, `some v` a real value.  All comparisons against NaN are
false, as in IEEE arithmetic.

One iteration of the scanning loop (lines 120-146 of the source) is
embedded as `scanStep`, parametric in the evaluator `f` and in the
external bounded minimizer `opt` (scipy's `optimize.minimize`, an opaque
external collaborator that receives the objective, the seed and the two
bounds and returns an argmin).
-/

/-- Run-time failures of the Python evaluator. -/
inductive Err : Type where
  | zeroDivision : Err
  | unboundLocal : Err
  | unsupportedMode : Err
  deriving DecidableEq, Repr

/-- A Python float that may be NaN: `none` is NaN. -/
abbrev PyVal := Option ℝ

/-- Spherical Bessel function of the first kind, orders 0..3, exactly as
`besselFn` computes it: each order divides by (a power of) the argument, so
argument `0` raises `ZeroDivisionError`; an order outside 0..3 falls
through the `match` and raises `UnboundLocalError`. -/
noncomputable def besselFn (n : ℤ) (x : ℝ) : Except Err ℝ :=
  if n = 0 then
    if x = 0 then .error .zeroDivision else .ok (Real.sin x / x)
  else if n = 1 then
    if x = 0 then .error .zeroDivision else
      .ok (Real.sin x / x ^ 2 - Real.cos x / x)
  else if n = 2 then
    if x = 0 then .error .zeroDivision else
      .ok ((3 / x ^ 2 - 1) * Real.sin x / x - 3 * Real.cos x / x ^ 2)
  else if n = 3 then
    if x = 0 then .error .zeroDivision else
      .ok ((15 / x ^ 3 - 6 / x) * Real.sin x / x -
        (15 / x ^ 2 - 1) * Real.cos x / x)
  else .error .unboundLocal

/-- The characteristic (Lamb) equation evaluator, following `lambEqn`
line by line: the radius is converted from nanometers to meters, the two
eigenvalues `xi` and `eta` are formed (each divides by a velocity, raising
`ZeroDivisionError` if it is zero), the four Bessel values are computed in
source order, and the result is dispatched on the mode.  The mode-1 branch
divides by `j(xi,1)` and `j(eta,1)`; the mode-2 branch is guarded and
returns NaN (`none`) when a denominator Bessel value is zero; any other
mode value would raise `UnsupportedMode`, but this arm is unreachable
because `besselFn` fails first for every mode outside 0..2. -/
noncomputable def lambEqn (omega radius velLong velTrans : ℝ) (mode : ℤ) :
    Except Err PyVal :=
  let r := radius / 10 ^ 9
  if velLong = 0 then .error .zeroDivision
  else if velTrans = 0 then .error .zeroDivision
  else
    let xi := omega * r / velLong
    let eta := omega * r / velTrans
    do
      let jxl ← besselFn mode xi
      let jxlp1 ← besselFn (mode + 1) xi
      let jel ← besselFn mode eta
      let jelp1 ← besselFn (mode + 1) eta
      if mode = 0 then
        if velLong ^ 2 * xi = 0 then .error .zeroDivision
        else .ok (some (4 * velTrans ^ 2 * jxlp1 / (velLong ^ 2 * xi) - jxl))
      else if mode = 1 then
        if jxl = 0 then .error .zeroDivision
        else if jel = 0 then .error .zeroDivision
        else .ok (some (4 * jxlp1 / jxl * xi - eta ^ 2 + 2 * jelp1 / jel * eta))
      else if mode = 2 then
        if jxl ≠ 0 ∧ jel ≠ 0 then
          .ok (some (10 * eta ^ 2 - eta ^ 4 +
            eta * jelp1 * (2 * eta ^ 2 - 32) / jel +
            jxlp1 * xi * (4 * eta ^ 2 + 16 * jelp1 * eta / jel - 48) / jxl))
        else .ok none
      else .error .unsupportedMode

/-- Absolute value of the characteristic function, as `absLambEqn` computes
it: `abs` of NaN is NaN, and an exception raised by `lambEqn` propagates. -/
noncomputable def absLambEqn (omega radius velLong velTrans : ℝ) (mode : ℤ) :
    Except Err PyVal :=
  (lambEqn omega radius velLong velTrans mode).map (Option.map (fun v => |v|))

/-- Spherical Bessel function of the first kind as an ideal real function,
using the same closed forms for orders 0..3 (and junk value 0 elsewhere);
used only to state the specification's formulas. -/
noncomputable def jSpec (n : ℤ) (x : ℝ) : ℝ :=
  if n = 0 then Real.sin x / x
  else if n = 1 then Real.sin x / x ^ 2 - Real.cos x / x
  else if n = 2 then (3 / x ^ 2 - 1) * Real.sin x / x - 3 * Real.cos x / x ^ 2
  else if n = 3 then
    (15 / x ^ 3 - 6 / x) * Real.sin x / x - (15 / x ^ 2 - 1) * Real.cos x / x
  else 0

/-- The division-free general-mode formula exactly as the specification
writes it for mode ≥ 1, with the eigenvalues formed from the same
nanometer-to-meter conversion; declared only to compare the
specification's formula with what the code computes. -/
noncomputable def lambEqnSpecGeneral (omega radius velLong velTrans : ℝ)
    (mode : ℤ) : ℝ :=
  let r := radius / 10 ^ 9
  let xi := omega * r / velLong
  let eta := omega * r / velTrans
  let m : ℝ := (mode : ℝ)
  4 * (eta ^ 2 * jSpec mode eta +
      (m - 1) * (m + 2) * (eta * jSpec (mode + 1) eta - (m + 1) * jSpec mode eta)) *
    (xi * jSpec (mode + 1) xi) +
  ((-eta ^ 4 + 2 * (m - 1) * (2 * m + 1) * eta ^ 2) * jSpec mode eta +
      2 * (eta ^ 2 - 2 * m * (m - 1) * (m + 2)) * eta * jSpec (mode + 1) eta) *
    jSpec mode xi

/-- Python comparison `a <= b` on possibly-NaN floats: false whenever
either side is NaN. -/
def pyLe {α : Type} [LinearOrder α] : Option α → Option α → Bool
  | some x, some y => decide (x ≤ y)
  | _, _ => false

/-- The scanner's zero-crossing test, line 128 of the source:
`(lastValue <= 0 and newValue >= 0) or (lastValue >= 0 and newValue <= 0)`. -/
def crossing {α : Type} [LinearOrderedField α] (lastValue newValue : Option α) :
    Bool :=
  (pyLe lastValue (some 0) && pyLe (some 0) newValue) ||
    (pyLe (some 0) lastValue && pyLe newValue (some 0))

/-- Python comparison `abs(a) < abs(b)` on possibly-NaN floats: false
whenever either side is NaN (`abs` of NaN is NaN). -/
def pyAbsLt {α : Type} [LinearOrderedField α] : Option α → Option α → Bool
  | some x, some y => decide (|x| < |y|)
  | _, _ => false

/-- The absolute-value objective handed to the minimizer, i.e. the role
`absLambEqn` plays for the concrete evaluator. -/
def absObj {α : Type} [LinearOrderedField α]
    (f : α → Except Err (Option α)) : α → Except Err (Option α) :=
  fun w => (f w).map (Option.map (fun v => |v|))

/-- The scanner's loop state: current frequency, the characteristic value
there, the number of roots accepted so far, and the last refined root. -/
structure ScanState (α : Type) where
  lastOmega : α
  lastValue : Option α
  rootsFound : ℕ
  lastRoot : Option α
  deriving Repr, DecidableEq

/-- One iteration of the scanning loop, lines 120-146 of the source,
parametric in the evaluator `f` and the external bounded minimizer `opt`
(arguments: objective, initial guess, lower bound, upper bound).  The step
advances the frequency by `stepSize`, evaluates the function there, tests
for a zero crossing, on a candidate crossing evaluates one step backward
and applies the discontinuity filter, and on acceptance calls the
minimizer on the absolute objective over `[lastOmega - 1, newOmega + 1]`
seeded at the midpoint, incrementing the root count. -/
def scanStep {α : Type} [LinearOrderedField α]
    (f : α → Except Err (Option α))
    (opt : (α → Except Err (Option α)) → α → α → α → α)
    (stepSize : α) (s : ScanState α) : Except Err (ScanState α) := do
  let newOmega := s.lastOmega + stepSize
  let newValue ← f newOmega
  if crossing s.lastValue newValue then do
    let olderValue ← f (s.lastOmega - stepSize)
    if pyAbsLt s.lastValue olderValue then
      .ok { lastOmega := newOmega, lastValue := newValue,
            rootsFound := s.rootsFound + 1,
            lastRoot := some (opt (absObj f) ((s.lastOmega + newOmega) / 2)
              (s.lastOmega - 1) (newOmega + 1)) }
    else
      .ok { lastOmega := newOmega, lastValue := newValue,
            rootsFound := s.rootsFound, lastRoot := s.lastRoot }
  else
    .ok { lastOmega := newOmega, lastValue := newValue,
          rootsFound := s.rootsFound, lastRoot := s.lastRoot }

/-- Evaluator used by the scanner witnesses: a fixed genuine crossing with
a large-magnitude sample two steps back. -/
def wEvalA : ℚ → Except Err (Option ℚ) :=
  fun w => if w = 0 then .ok (some (-5)) else .ok (some 1)

/-- Evaluator whose backward sample has smaller magnitude than the one at
the crossing, so the discontinuity filter rejects the candidate. -/
def wEvalR : ℚ → Except Err (Option ℚ) :=
  fun w => if w = 0 then .ok (some (-1 / 2)) else .ok (some 1)

/-- Evaluator that fails one step backward, marking when the scanner looks
back at a candidate crossing. -/
def wEvalE : ℚ → Except Err (Option ℚ) :=
  fun w => if w = 0 then .error .zeroDivision else .ok (some 1)

/-- Evaluator returning the indeterminate value (NaN) everywhere. -/
def wEvalN : ℚ → Except Err (Option ℚ) :=
  fun _ => .ok none

/-- Stand-in for the external bounded minimizer: returns its seed. -/
def wOpt : (ℚ → Except Err (Option ℚ)) → ℚ → ℚ → ℚ → ℚ :=
  fun _ x _ _ => x

/-- Scanner state used by the witnesses: frequency 1, last value -1, no
root found yet. -/
def wState : ScanState ℚ :=
  { lastOmega := 1, lastValue := some (-1), rootsFound := 0, lastRoot := none }

/-- State reached from `wState` by one accepted-crossing step of the
scanner on `wEvalA`. -/
def wStateA : ScanState ℚ :=
  { lastOmega := 2, lastValue := some 1, rootsFound := 1,
    lastRoot := some (3 / 2) }

open Real

/-- Reduction of an `Except` bind on a success value. -/
theorem exceptBindOk {ε α β : Type} (a : α) (g : α → Except ε β) :
    (Except.ok a >>= g) = g a := rfl

/-- Reduction of an `Except` bind on an error value. -/
theorem exceptBindErr {ε α β : Type} (e : ε) (g : α → Except ε β) :
    ((Except.error e : Except ε α) >>= g) = Except.error e := rfl

/-- The crossing test is false whenever the previous sample is NaN. -/
theorem crossing_nan_left {α : Type} [LinearOrderedField α] (b : Option α) :
    crossing (α := α) none b = false := by
  cases b <;> simp [crossing, pyLe]

/-- The crossing test is false whenever the new sample is NaN. -/
theorem crossing_nan_right {α : Type} [LinearOrderedField α] (a : Option α) :
    crossing (α := α) a none = false := by
  cases a <;> simp [crossing, pyLe]

/-- Shape of one scan step when no crossing is detected. -/
theorem scanStep_no_crossing {α : Type} [LinearOrderedField α]
    (f : α → Except Err (Option α))
    (opt : (α → Except Err (Option α)) → α → α → α → α)
    (stepSize : α) (s : ScanState α) (nv : Option α)
    (hnew : f (s.lastOmega + stepSize) = .ok nv)
    (hc : crossing s.lastValue nv = false) :
    scanStep f opt stepSize s =
      .ok { lastOmega := s.lastOmega + stepSize, lastValue := nv,
            rootsFound := s.rootsFound, lastRoot := s.lastRoot } := by
  unfold scanStep
  dsimp only
  rw [hnew, exceptBindOk, hc]
  simp

/-- Shape of one scan step on a candidate crossing rejected by the
discontinuity filter. -/
theorem scanStep_reject {α : Type} [LinearOrderedField α]
    (f : α → Except Err (Option α))
    (opt : (α → Except Err (Option α)) → α → α → α → α)
    (stepSize : α) (s : ScanState α) (nv ov : Option α)
    (hnew : f (s.lastOmega + stepSize) = .ok nv)
    (hc : crossing s.lastValue nv = true)
    (hold : f (s.lastOmega - stepSize) = .ok ov)
    (hf : pyAbsLt s.lastValue ov = false) :
    scanStep f opt stepSize s =
      .ok { lastOmega := s.lastOmega + stepSize, lastValue := nv,
            rootsFound := s.rootsFound, lastRoot := s.lastRoot } := by
  unfold scanStep
  dsimp only
  rw [hnew, exceptBindOk, hc]
  simp only [if_true]
  rw [hold, exceptBindOk, hf]
  simp

/-- Shape of one scan step on an accepted crossing. -/
theorem scanStep_accept {α : Type} [LinearOrderedField α]
    (f : α → Except Err (Option α))
    (opt : (α → Except Err (Option α)) → α → α → α → α)
    (stepSize : α) (s : ScanState α) (nv ov : Option α)
    (hnew : f (s.lastOmega + stepSize) = .ok nv)
    (hc : crossing s.lastValue nv = true)
    (hold : f (s.lastOmega - stepSize) = .ok ov)
    (hf : pyAbsLt s.lastValue ov = true) :
    scanStep f opt stepSize s =
      .ok { lastOmega := s.lastOmega + stepSize, lastValue := nv,
            rootsFound := s.rootsFound + 1,
            lastRoot := some (opt (absObj f)
              ((s.lastOmega + (s.lastOmega + stepSize)) / 2)
              (s.lastOmega - 1) (s.lastOmega + stepSize + 1)) } := by
  unfold scanStep
  dsimp only
  rw [hnew, exceptBindOk, hc]
  simp only [if_true]
  rw [hold, exceptBindOk, hf]
  simp

/-- C8: across any run of the scanner, `lastOmega` advances by exactly
`stepSize` on every completed loop iteration, whether the crossing is
accepted, rejected, or absent; with a positive step the frequency strictly
increases and is never revisited. -/
theorem c8_monotonic_progress {α : Type} [LinearOrderedField α]
    (f : α → Except Err (Option α))
    (opt : (α → Except Err (Option α)) → α → α → α → α)
    (stepSize : α) (s s' : ScanState α)
    (hstep : scanStep f opt stepSize s = .ok s') :
    s'.lastOmega = s.lastOmega + stepSize ∧
      (0 < stepSize → s.lastOmega < s'.lastOmega) := by
  unfold scanStep at hstep
  dsimp only at hstep
  rcases hfe : f (s.lastOmega + stepSize) with e | nv
  · rw [hfe, exceptBindErr] at hstep
    exact absurd hstep (by simp)
  rw [hfe, exceptBindOk] at hstep
  by_cases hc : crossing s.lastValue nv = true
  · rw [if_pos hc] at hstep
    rcases hfo : f (s.lastOmega - stepSize) with e | ov
    · rw [hfo, exceptBindErr] at hstep
      exact absurd hstep (by simp)
    rw [hfo, exceptBindOk] at hstep
    by_cases hf : pyAbsLt s.lastValue ov = true
    · rw [if_pos hf] at hstep
      obtain rfl : _ = s' := Except.ok.inj hstep
      refine ⟨rfl, fun h => ?_⟩
      simpa using lt_add_of_pos_right s.lastOmega h
    · rw [if_neg hf] at hstep
      obtain rfl : _ = s' := Except.ok.inj hstep
      refine ⟨rfl, fun h => ?_⟩
      simpa using lt_add_of_pos_right s.lastOmega h
  · rw [if_neg hc] at hstep
    obtain rfl : _ = s' := Except.ok.inj hstep
    refine ⟨rfl, fun h => ?_⟩
    simpa using lt_add_of_pos_right s.lastOmega h

/-- Evaluation of one accepted-crossing scan step on the witness data. -/
theorem scanStep_wEvalA : scanStep wEvalA wOpt 1 wState = .ok wStateA := by
  have h1 : wEvalA (wState.lastOmega + 1) = .ok (some 1) := by
    norm_num [wEvalA, wState]
  have h2 : wEvalA (wState.lastOmega - 1) = .ok (some (-5)) := by
    norm_num [wEvalA, wState]
  have hc : crossing wState.lastValue (some 1) = true := by
    simp [crossing, pyLe, wState]
  have hf : pyAbsLt wState.lastValue (some (-5)) = true := by
    simp [pyAbsLt, wState]
  rw [scanStep_accept wEvalA wOpt 1 wState (some 1) (some (-5)) h1 hc h2 hf]
  norm_num [wState, wStateA, wOpt]

/-- C8 witness at a concrete rational-valued scan step. -/
theorem c8_monotonic_progress_witness :
    wStateA.lastOmega = wState.lastOmega + 1 ∧
      ((0 : ℚ) < 1 → wState.lastOmega < wStateA.lastOmega) := by
  exact c8_monotonic_progress wEvalA wOpt 1 wState _ scanStep_wEvalA

/-- C3: on every candidate sign-change interval the scanner evaluates the
characteristic function one step backward, accepts the crossing as a
genuine root exactly when `abs(lastValue) < abs(olderValue)`, and on
rejection continues scanning with `rootsFound` (and the recorded root)
unchanged. -/
theorem c3_discontinuity_filter {α : Type} [LinearOrderedField α]
    (f : α → Except Err (Option α))
    (opt : (α → Except Err (Option α)) → α → α → α → α)
    (stepSize : α) (s s' : ScanState α) (nv ov : Option α)
    (hnew : f (s.lastOmega + stepSize) = .ok nv)
    (hcross : crossing s.lastValue nv = true)
    (hold : f (s.lastOmega - stepSize) = .ok ov)
    (hstep : scanStep f opt stepSize s = .ok s') :
    (s'.rootsFound = s.rootsFound + 1 ↔ pyAbsLt s.lastValue ov = true) ∧
      (pyAbsLt s.lastValue ov = false →
        s'.rootsFound = s.rootsFound ∧ s'.lastRoot = s.lastRoot) := by
  by_cases hf : pyAbsLt s.lastValue ov = true
  · rw [scanStep_accept f opt stepSize s nv ov hnew hcross hold hf] at hstep
    obtain rfl : _ = s' := Except.ok.inj hstep
    simp [hf]
  · rw [scanStep_reject f opt stepSize s nv ov hnew hcross hold
      (Bool.not_eq_true _ ▸ hf)] at hstep
    obtain rfl : _ = s' := Except.ok.inj hstep
    simp [hf]

/-- Evaluation of one rejected-crossing scan step on the witness data:
the sample two steps back is closer to zero, so the filter rejects. -/
theorem scanStep_wEvalR :
    scanStep wEvalR wOpt 1 wState =
      .ok { lastOmega := 2, lastValue := some 1, rootsFound := 0,
            lastRoot := none } := by
  have h1 : wEvalR (wState.lastOmega + 1) = .ok (some 1) := by
    norm_num [wEvalR, wState]
  have h2 : wEvalR (wState.lastOmega - 1) = .ok (some (-1 / 2)) := by
    norm_num [wEvalR, wState]
  have hc : crossing wState.lastValue (some 1) = true := by
    simp [crossing, pyLe, wState]
  have hf : pyAbsLt wState.lastValue (some (-1 / 2)) = false := by
    simp [pyAbsLt, wState]
    norm_num [abs_le]
  rw [scanStep_reject wEvalR wOpt 1 wState (some 1) (some (-1 / 2)) h1 hc h2 hf]
  norm_num [wState]

/-- C3 witness: a concrete rejected crossing leaves the root count and the
recorded root unchanged. -/
theorem c3_discontinuity_filter_witness :
    (({ lastOmega := 2, lastValue := some 1, rootsFound := 0,
        lastRoot := none } : ScanState ℚ).rootsFound = wState.rootsFound + 1 ↔
      pyAbsLt wState.lastValue (some (-1 / 2)) = true) ∧
      (pyAbsLt wState.lastValue (some (-1 / 2)) = false →
        ({ lastOmega := 2, lastValue := some 1, rootsFound := 0,
           lastRoot := none } : ScanState ℚ).rootsFound = wState.rootsFound ∧
          ({ lastOmega := 2, lastValue := some 1, rootsFound := 0,
             lastRoot := none } : ScanState ℚ).lastRoot = wState.lastRoot) := by
  refine c3_discontinuity_filter wEvalR wOpt 1 wState _ (some 1) (some (-1 / 2))
    ?_ ?_ ?_ scanStep_wEvalR
  · norm_num [wEvalR, wState]
  · simp [crossing, pyLe, wState]
  · norm_num [wEvalR, wState]

/-- C4: a scan step treats `[lastOmega, newOmega]` as a candidate crossing
exactly when the two adjacent samples have opposite signs or either is
zero; candidacy is observed here through the backward evaluation, which is
reached (propagating its error) precisely on a candidate. -/
theorem c4_crossing_test {α : Type} [LinearOrderedField α]
    (f : α → Except Err (Option α))
    (opt : (α → Except Err (Option α)) → α → α → α → α)
    (stepSize : α) (s : ScanState α) (nv : Option α) (e : Err)
    (hnew : f (s.lastOmega + stepSize) = .ok nv)
    (hold : f (s.lastOmega - stepSize) = .error e) :
    (scanStep f opt stepSize s = .error e ↔
      ((pyLe s.lastValue (some 0) && pyLe (some 0) nv) ||
        (pyLe (some 0) s.lastValue && pyLe nv (some 0))) = true) := by
  unfold scanStep
  dsimp only
  rw [hnew, exceptBindOk]
  by_cases hc : crossing s.lastValue nv = true
  · rw [if_pos hc, hold, exceptBindErr]
    unfold crossing at hc
    simp [hc]
  · rw [if_neg hc]
    unfold crossing at hc
    simp only [Bool.not_eq_true] at hc
    simp [hc]

/-- C4 witness: on a concrete candidate crossing the scan step reaches the
backward sample, whose failure propagates. -/
theorem c4_crossing_test_witness :
    (scanStep wEvalE wOpt 1 wState = .error .zeroDivision ↔
      ((pyLe wState.lastValue (some (0 : ℚ)) && pyLe (some 0) (some 1)) ||
        (pyLe (some 0) wState.lastValue && pyLe (some 1) (some 0))) = true) := by
  refine c4_crossing_test wEvalE wOpt 1 wState (some 1) .zeroDivision ?_ ?_
  · norm_num [wEvalE, wState]
  · norm_num [wEvalE, wState]

/-- C5: an indeterminate (NaN) sample on either side of the interval makes
the crossing test fail, so a scan step seeing NaN never increments the
root count. -/
theorem c5_nan_not_a_root {α : Type} [LinearOrderedField α]
    (f : α → Except Err (Option α))
    (opt : (α → Except Err (Option α)) → α → α → α → α)
    (stepSize : α) (s s' : ScanState α) (nv : Option α)
    (hnan : s.lastValue = none ∨ nv = none)
    (hnew : f (s.lastOmega + stepSize) = .ok nv)
    (hstep : scanStep f opt stepSize s = .ok s') :
    crossing s.lastValue nv = false ∧ s'.rootsFound = s.rootsFound := by
  have hc : crossing s.lastValue nv = false := by
    rcases hnan with h | h
    · rw [h, crossing_nan_left]
    · rw [h, crossing_nan_right]
  rw [scanStep_no_crossing f opt stepSize s nv hnew hc] at hstep
  obtain rfl : _ = s' := Except.ok.inj hstep
  exact ⟨hc, rfl⟩

/-- C5 witness: a NaN sample at the new frequency is not accepted as a
zero crossing. -/
theorem c5_nan_not_a_root_witness :
    crossing wState.lastValue (none : Option ℚ) = false ∧
      ({ lastOmega := 2, lastValue := none, rootsFound := 0,
         lastRoot := none } : ScanState ℚ).rootsFound = wState.rootsFound := by
  have hstep : scanStep wEvalN wOpt 1 wState =
      .ok { lastOmega := 2, lastValue := none, rootsFound := 0,
            lastRoot := none } := by
    have h1 : wEvalN (wState.lastOmega + 1) = .ok none := rfl
    have hc : crossing wState.lastValue (none : Option ℚ) = false := by
      rw [crossing_nan_right]
    rw [scanStep_no_crossing wEvalN wOpt 1 wState none h1 hc]
    norm_num [wState]
  exact c5_nan_not_a_root wEvalN wOpt 1 wState _ none (Or.inr rfl) rfl hstep

/-- C7: an accepted crossing invokes the bounded minimizer on the
absolute-value objective with the inclusive bounds
`[lastOmega - 1, newOmega + 1]` and the interval midpoint as the initial
guess, increments the root count by exactly one, and records the
minimizer's argmin as the latest root; for the concrete evaluator the
absolute-value objective is `absLambEqn`. -/
theorem c7_refinement {α : Type} [LinearOrderedField α]
    (f : α → Except Err (Option α))
    (opt : (α → Except Err (Option α)) → α → α → α → α)
    (stepSize : α) (s : ScanState α) (nv ov : Option α)
    (hnew : f (s.lastOmega + stepSize) = .ok nv)
    (hcross : crossing s.lastValue nv = true)
    (hold : f (s.lastOmega - stepSize) = .ok ov)
    (hacc : pyAbsLt s.lastValue ov = true) :
    scanStep f opt stepSize s =
      .ok { lastOmega := s.lastOmega + stepSize, lastValue := nv,
            rootsFound := s.rootsFound + 1,
            lastRoot := some (opt (absObj f)
              ((s.lastOmega + (s.lastOmega + stepSize)) / 2)
              (s.lastOmega - 1) (s.lastOmega + stepSize + 1)) } ∧
      (∀ (w radius velLong velTrans : ℝ) (mode : ℤ),
        absObj (fun x => lambEqn x radius velLong velTrans mode) w =
          absLambEqn w radius velLong velTrans mode) := by
  exact ⟨scanStep_accept f opt stepSize s nv ov hnew hcross hold hacc,
    fun _ _ _ _ _ => rfl⟩

/-- C7 witness: a concrete accepted crossing records the minimizer output
over the widened bracket and bumps the root count. -/
theorem c7_refinement_witness :
    scanStep wEvalA wOpt 1 wState =
      .ok { lastOmega := wState.lastOmega + 1, lastValue := some 1,
            rootsFound := wState.rootsFound + 1,
            lastRoot := some (wOpt (absObj wEvalA)
              ((wState.lastOmega + (wState.lastOmega + 1)) / 2)
              (wState.lastOmega - 1) (wState.lastOmega + 1 + 1)) } ∧
      absObj (fun x => lambEqn x 50 1920 960 1) 1 = absLambEqn 1 50 1920 960 1 := by
  have h := c7_refinement wEvalA wOpt 1 wState (some 1) (some (-5))
    (by norm_num [wEvalA, wState]) (by simp [crossing, pyLe, wState])
    (by norm_num [wEvalA, wState]) (by simp [pyAbsLt, wState])
  exact ⟨h.1, h.2 1 50 1920 960 1⟩

/-- Order-0 spherical Bessel evaluation away from zero. -/
theorem besselFn_order0 (x : ℝ) (hx : x ≠ 0) :
    besselFn 0 x = .ok (Real.sin x / x) := by
  simp [besselFn, hx]

/-- Order-1 spherical Bessel evaluation away from zero. -/
theorem besselFn_order1 (x : ℝ) (hx : x ≠ 0) :
    besselFn 1 x = .ok (Real.sin x / x ^ 2 - Real.cos x / x) := by
  simp [besselFn, hx]

/-- Order-2 spherical Bessel evaluation away from zero. -/
theorem besselFn_order2 (x : ℝ) (hx : x ≠ 0) :
    besselFn 2 x = .ok ((3 / x ^ 2 - 1) * Real.sin x / x -
      3 * Real.cos x / x ^ 2) := by
  simp [besselFn, hx]

/-- Order-3 spherical Bessel evaluation away from zero. -/
theorem besselFn_order3 (x : ℝ) (hx : x ≠ 0) :
    besselFn 3 x = .ok ((15 / x ^ 3 - 6 / x) * Real.sin x / x -
      (15 / x ^ 2 - 1) * Real.cos x / x) := by
  simp [besselFn, hx]

/-- A negative Bessel order falls through the `match` and leaves the local
result unbound. -/
theorem besselFn_neg_order (n : ℤ) (x : ℝ) (hn : n < 0) :
    besselFn n x = .error .unboundLocal := by
  have h0 : n ≠ 0 := by omega
  have h1 : n ≠ 1 := by omega
  have h2 : n ≠ 2 := by omega
  have h3 : n ≠ 3 := by omega
  simp [besselFn, h0, h1, h2, h3]

/-- A Bessel order above three falls through the `match` and leaves the
local result unbound. -/
theorem besselFn_big_order (n : ℤ) (x : ℝ) (hn : 3 < n) :
    besselFn n x = .error .unboundLocal := by
  have h0 : n ≠ 0 := by omega
  have h1 : n ≠ 1 := by omega
  have h2 : n ≠ 2 := by omega
  have h3 : n ≠ 3 := by omega
  simp [besselFn, h0, h1, h2, h3]

/-- Every implemented Bessel order divides by its argument, so argument
zero raises `ZeroDivisionError`. -/
theorem besselFn_at_zero (n : ℤ) (hn : n = 0 ∨ n = 1 ∨ n = 2 ∨ n = 3) :
    besselFn n 0 = .error .zeroDivision := by
  rcases hn with rfl | rfl | rfl | rfl <;> simp [besselFn]

/-- Mode-0 (breathing) evaluation of the characteristic function: with
nonzero velocities and nonzero eigenvalues the evaluator returns the
breathing-mode formula. -/
theorem lambEqn_mode0 (omega radius velLong velTrans : ℝ)
    (hvL : velLong ≠ 0) (hvT : velTrans ≠ 0)
    (hxi : omega * (radius / 10 ^ 9) / velLong ≠ 0)
    (heta : omega * (radius / 10 ^ 9) / velTrans ≠ 0) :
    lambEqn omega radius velLong velTrans 0 =
      .ok (some (4 * velTrans ^ 2 *
        jSpec 1 (omega * (radius / 10 ^ 9) / velLong) /
          (velLong ^ 2 * (omega * (radius / 10 ^ 9) / velLong)) -
        jSpec 0 (omega * (radius / 10 ^ 9) / velLong))) := by
  unfold lambEqn
  dsimp only
  rw [if_neg hvL, if_neg hvT]
  rw [besselFn_order0 _ hxi, exceptBindOk]
  rw [show ((0 : ℤ) + 1) = 1 by norm_num]
  rw [besselFn_order1 _ hxi, exceptBindOk]
  rw [besselFn_order0 _ heta, exceptBindOk]
  rw [besselFn_order1 _ heta, exceptBindOk]
  rw [if_pos rfl]
  rw [if_neg (mul_ne_zero (pow_ne_zero 2 hvL) hxi)]
  simp [jSpec]

/-- Mode-1 (dipolar) evaluation of the characteristic function: with
nonzero velocities, nonzero eigenvalues and nonzero order-1 Bessel
denominators, the evaluator returns the Bessel-ratio form of the dipolar
equation, dividing by `j(xi,1)` and `j(eta,1)`. -/
theorem lambEqn_mode1 (omega radius velLong velTrans : ℝ)
    (hvL : velLong ≠ 0) (hvT : velTrans ≠ 0)
    (hxi : omega * (radius / 10 ^ 9) / velLong ≠ 0)
    (heta : omega * (radius / 10 ^ 9) / velTrans ≠ 0)
    (hjx : jSpec 1 (omega * (radius / 10 ^ 9) / velLong) ≠ 0)
    (hje : jSpec 1 (omega * (radius / 10 ^ 9) / velTrans) ≠ 0) :
    lambEqn omega radius velLong velTrans 1 =
      .ok (some
        (4 * jSpec 2 (omega * (radius / 10 ^ 9) / velLong) /
            jSpec 1 (omega * (radius / 10 ^ 9) / velLong) *
            (omega * (radius / 10 ^ 9) / velLong) -
          (omega * (radius / 10 ^ 9) / velTrans) ^ 2 +
          2 * jSpec 2 (omega * (radius / 10 ^ 9) / velTrans) /
            jSpec 1 (omega * (radius / 10 ^ 9) / velTrans) *
            (omega * (radius / 10 ^ 9) / velTrans))) := by
  have hjx' : Real.sin (omega * (radius / 10 ^ 9) / velLong) /
        (omega * (radius / 10 ^ 9) / velLong) ^ 2 -
      Real.cos (omega * (radius / 10 ^ 9) / velLong) /
        (omega * (radius / 10 ^ 9) / velLong) ≠ 0 := by
    simpa [jSpec] using hjx
  have hje' : Real.sin (omega * (radius / 10 ^ 9) / velTrans) /
        (omega * (radius / 10 ^ 9) / velTrans) ^ 2 -
      Real.cos (omega * (radius / 10 ^ 9) / velTrans) /
        (omega * (radius / 10 ^ 9) / velTrans) ≠ 0 := by
    simpa [jSpec] using hje
  unfold lambEqn
  dsimp only
  rw [if_neg hvL, if_neg hvT]
  rw [besselFn_order1 _ hxi, exceptBindOk]
  rw [show ((1 : ℤ) + 1) = 2 by norm_num]
  rw [besselFn_order2 _ hxi, exceptBindOk]
  rw [besselFn_order1 _ heta, exceptBindOk]
  rw [besselFn_order2 _ heta, exceptBindOk]
  rw [if_neg (by norm_num : ¬ ((1 : ℤ) = 0)), if_pos rfl]
  rw [if_neg hjx', if_neg hje']
  simp [jSpec]

/-- A negative mode index fails inside `besselFn` before the mode dispatch
is ever reached: the first Bessel call falls through the order `match`. -/
theorem lambEqn_neg_mode (omega radius velLong velTrans : ℝ) (mode : ℤ)
    (hm : mode < 0) (hvL : velLong ≠ 0) (hvT : velTrans ≠ 0) :
    lambEqn omega radius velLong velTrans mode = .error .unboundLocal := by
  unfold lambEqn
  dsimp only
  rw [if_neg hvL, if_neg hvT]
  rw [besselFn_neg_order mode _ hm, exceptBindErr]

/-- A mode index of three or more also fails inside `besselFn`: either the
eigenvalue is zero (division by zero at order three) or the order
`mode + 1 ≥ 4` falls through the `match`. -/
theorem lambEqn_big_mode (omega radius velLong velTrans : ℝ) (mode : ℤ)
    (hm : 3 ≤ mode) (hvL : velLong ≠ 0) (hvT : velTrans ≠ 0) :
    lambEqn omega radius velLong velTrans mode = .error .unboundLocal ∨
      lambEqn omega radius velLong velTrans mode = .error .zeroDivision := by
  unfold lambEqn
  dsimp only
  rw [if_neg hvL, if_neg hvT]
  by_cases hm3 : mode = 3
  · subst hm3
    by_cases hxi : omega * (radius / 10 ^ 9) / velLong = 0
    · rw [hxi, besselFn_at_zero 3 (by norm_num), exceptBindErr]
      exact Or.inr rfl
    · rw [besselFn_order3 _ hxi, exceptBindOk]
      rw [besselFn_big_order (3 + 1) _ (by norm_num), exceptBindErr]
      exact Or.inl rfl
  · rw [besselFn_big_order mode _ (by omega), exceptBindErr]
    exact Or.inl rfl

/-- C6: for mode 0 with positive frequency and physical parameters the
evaluator returns exactly the breathing-mode formula
`4*velTrans^2*j(xi,1)/(velLong^2*xi) - j(xi,0)`, with the radius first
converted from nanometers to meters by dividing by `10^9` and
`xi = omega*(radius/10^9)/velLong`. -/
theorem c6_mode0_breathing (omega radius velLong velTrans : ℝ)
    (homega : 0 < omega) (hr : 0 < radius) (hvL : 0 < velLong)
    (hvT : 0 < velTrans) :
    lambEqn omega radius velLong velTrans 0 =
      .ok (some (4 * velTrans ^ 2 *
        jSpec 1 (omega * (radius / 10 ^ 9) / velLong) /
          (velLong ^ 2 * (omega * (radius / 10 ^ 9) / velLong)) -
        jSpec 0 (omega * (radius / 10 ^ 9) / velLong))) := by
  have hxi : omega * (radius / 10 ^ 9) / velLong ≠ 0 := by positivity
  have heta : omega * (radius / 10 ^ 9) / velTrans ≠ 0 := by positivity
  exact lambEqn_mode0 omega radius velLong velTrans hvL.ne' hvT.ne' hxi heta

/-- C6 witness: concrete mode-0 evaluation at frequency 1 with unit
velocities and a radius of `10^9` nanometers. -/
theorem c6_mode0_breathing_witness :
    lambEqn 1 (10 ^ 9) 1 1 0 =
      .ok (some (4 * (1 : ℝ) ^ 2 *
        jSpec 1 (1 * ((10 ^ 9 : ℝ) / 10 ^ 9) / 1) /
          ((1 : ℝ) ^ 2 * (1 * ((10 ^ 9 : ℝ) / 10 ^ 9) / 1)) -
        jSpec 0 (1 * ((10 ^ 9 : ℝ) / 10 ^ 9) / 1))) := by
  exact c6_mode0_breathing 1 (10 ^ 9) 1 1 (by norm_num) (by norm_num)
    (by norm_num) (by norm_num)

/-- C9: wherever the evaluator returns a real value, the absolute
evaluator returns its absolute value, which is nonnegative and zero
exactly when the evaluator's value is zero. -/
theorem c9_absolute_value (omega radius velLong velTrans : ℝ) (mode : ℤ)
    (v : ℝ) (h : lambEqn omega radius velLong velTrans mode = .ok (some v)) :
    absLambEqn omega radius velLong velTrans mode = .ok (some |v|) ∧
      0 ≤ |v| ∧ (|v| = 0 ↔ v = 0) := by
  refine ⟨?_, abs_nonneg v, abs_eq_zero⟩
  unfold absLambEqn
  rw [h]
  rfl

/-- C9 witness: the absolute evaluator at a concrete mode-0 input. -/
theorem c9_absolute_value_witness :
    absLambEqn 1 (10 ^ 9) 1 1 0 =
      .ok (some |4 * (1 : ℝ) ^ 2 *
        jSpec 1 (1 * ((10 ^ 9 : ℝ) / 10 ^ 9) / 1) /
          ((1 : ℝ) ^ 2 * (1 * ((10 ^ 9 : ℝ) / 10 ^ 9) / 1)) -
        jSpec 0 (1 * ((10 ^ 9 : ℝ) / 10 ^ 9) / 1)|) ∧
      0 ≤ |4 * (1 : ℝ) ^ 2 *
        jSpec 1 (1 * ((10 ^ 9 : ℝ) / 10 ^ 9) / 1) /
          ((1 : ℝ) ^ 2 * (1 * ((10 ^ 9 : ℝ) / 10 ^ 9) / 1)) -
        jSpec 0 (1 * ((10 ^ 9 : ℝ) / 10 ^ 9) / 1)| ∧
      (|4 * (1 : ℝ) ^ 2 *
        jSpec 1 (1 * ((10 ^ 9 : ℝ) / 10 ^ 9) / 1) /
          ((1 : ℝ) ^ 2 * (1 * ((10 ^ 9 : ℝ) / 10 ^ 9) / 1)) -
        jSpec 0 (1 * ((10 ^ 9 : ℝ) / 10 ^ 9) / 1)| = 0 ↔
        4 * (1 : ℝ) ^ 2 *
        jSpec 1 (1 * ((10 ^ 9 : ℝ) / 10 ^ 9) / 1) /
          ((1 : ℝ) ^ 2 * (1 * ((10 ^ 9 : ℝ) / 10 ^ 9) / 1)) -
        jSpec 0 (1 * ((10 ^ 9 : ℝ) / 10 ^ 9) / 1) = 0) := by
  refine c9_absolute_value 1 (10 ^ 9) 1 1 0 _ ?_
  exact lambEqn_mode0 1 (10 ^ 9) 1 1 (by norm_num) (by norm_num)
    (by norm_num) (by norm_num)

/-- C10: `besselFn` divides by its argument in every implemented order, so
at frequency zero both eigenvalues vanish and every supported mode raises
`ZeroDivisionError`: the evaluator is only total away from `omega = 0`. -/
theorem c10_omega_zero_undefined :
    (∀ n : ℤ, (n = 0 ∨ n = 1 ∨ n = 2 ∨ n = 3) →
      besselFn n 0 = .error .zeroDivision) ∧
    (∀ (radius velLong velTrans : ℝ) (mode : ℤ),
      (mode = 0 ∨ mode = 1 ∨ mode = 2) → velLong ≠ 0 → velTrans ≠ 0 →
        lambEqn 0 radius velLong velTrans mode = .error .zeroDivision) := by
  refine ⟨besselFn_at_zero, ?_⟩
  intro radius velLong velTrans mode hm hvL hvT
  unfold lambEqn
  dsimp only
  rw [if_neg hvL, if_neg hvT]
  rw [show (0 : ℝ) * (radius / 10 ^ 9) / velLong = 0 by ring]
  rw [besselFn_at_zero mode (by tauto), exceptBindErr]

/-- C10 witness: the program's own default radius and velocities at
frequency zero. -/
theorem c10_omega_zero_undefined_witness :
    besselFn 0 0 = .error .zeroDivision ∧
      lambEqn 0 50 1920 960 0 = .error .zeroDivision := by
  exact ⟨c10_omega_zero_undefined.1 0 (Or.inl rfl),
    c10_omega_zero_undefined.2 50 1920 960 0 (Or.inl rfl) (by norm_num)
      (by norm_num)⟩

/-- C2 counterexample: at a concrete valid input a negative mode fails
with `UnboundLocalError` from `besselFn`, not with the mode-dispatch
`UnsupportedMode` exception, and mode 3 — a mode the claim says evaluates
cleanly — also fails. -/
theorem c2_counterexample :
    lambEqn 1 (10 ^ 9) 1 1 (-1) = .error .unboundLocal ∧
      lambEqn 1 (10 ^ 9) 1 1 (-1) ≠ .error .unsupportedMode ∧
      lambEqn 1 (10 ^ 9) 1 1 3 = .error .unboundLocal := by
  have hneg : lambEqn 1 (10 ^ 9) 1 1 (-1) = .error .unboundLocal :=
    lambEqn_neg_mode 1 (10 ^ 9) 1 1 (-1) (by norm_num) (by norm_num)
      (by norm_num)
  refine ⟨hneg, by rw [hneg]; simp, ?_⟩
  unfold lambEqn
  dsimp only
  rw [if_neg (by norm_num : (1 : ℝ) ≠ 0), if_neg (by norm_num : (1 : ℝ) ≠ 0)]
  rw [besselFn_order3 _ (by norm_num), exceptBindOk]
  rw [besselFn_big_order (3 + 1) _ (by norm_num), exceptBindErr]

/-- C2 as amended: a negative mode index does fail fatally, but with the
`UnboundLocalError` arising in `besselFn` for an order outside 0..3 — the
mode-dispatch `UnsupportedMode` arm is never the error raised — and every
mode index of three or more fails inside `besselFn` as well, so only
modes 0, 1, 2 can evaluate. -/
theorem c2_negative_mode_failure (omega radius velLong velTrans : ℝ)
    (mode : ℤ) (hvL : velLong ≠ 0) (hvT : velTrans ≠ 0) :
    (mode < 0 →
      lambEqn omega radius velLong velTrans mode = .error .unboundLocal ∧
        lambEqn omega radius velLong velTrans mode ≠
          .error .unsupportedMode) ∧
    (3 ≤ mode →
      lambEqn omega radius velLong velTrans mode = .error .unboundLocal ∨
        lambEqn omega radius velLong velTrans mode = .error .zeroDivision) := by
  constructor
  · intro hm
    have h := lambEqn_neg_mode omega radius velLong velTrans mode hm hvL hvT
    exact ⟨h, by rw [h]; simp⟩
  · intro hm
    exact lambEqn_big_mode omega radius velLong velTrans mode hm hvL hvT

/-- C2 witness: concrete negative and large modes on valid inputs. -/
theorem c2_negative_mode_failure_witness :
    ((-2 : ℤ) < 0 →
      lambEqn 1 (10 ^ 9) 1 1 (-2) = .error .unboundLocal ∧
        lambEqn 1 (10 ^ 9) 1 1 (-2) ≠ .error .unsupportedMode) ∧
    ((3 : ℤ) ≤ -2 →
      lambEqn 1 (10 ^ 9) 1 1 (-2) = .error .unboundLocal ∨
        lambEqn 1 (10 ^ 9) 1 1 (-2) = .error .zeroDivision) := by
  exact c2_negative_mode_failure 1 (10 ^ 9) 1 1 (-2) (by norm_num)
    (by norm_num)

/-- Eigenvalue simplification at the concrete counterexample input. -/
theorem argPiHalf : Real.pi / 2 * ((10 ^ 9 : ℝ) / 10 ^ 9) / 1 = Real.pi / 2 := by
  norm_num

/-- Order-1 ideal Bessel value at `pi/2`. -/
theorem jSpec_one_pi_half : jSpec 1 (Real.pi / 2) = 4 / Real.pi ^ 2 := by
  have hpi := Real.pi_ne_zero
  simp [jSpec, Real.sin_pi_div_two, Real.cos_pi_div_two]
  field_simp
  ring

/-- Order-2 ideal Bessel value at `pi/2`. -/
theorem jSpec_two_pi_half :
    jSpec 2 (Real.pi / 2) = 24 / Real.pi ^ 3 - 2 / Real.pi := by
  have hpi := Real.pi_ne_zero
  simp [jSpec, Real.sin_pi_div_two, Real.cos_pi_div_two]
  field_simp
  ring

/-- The order-1 ideal Bessel value at `pi/2` is nonzero. -/
theorem jSpec_one_pi_half_ne : jSpec 1 (Real.pi / 2) ≠ 0 := by
  rw [jSpec_one_pi_half]
  positivity

/-- C1 counterexample: the claim's division-free general formula is not
what the code computes for modes ≥ 1.  At mode 3 the evaluation does not
return a value at all (`besselFn` fails at order 4), and at mode 1 the
value returned differs from the specification's polynomial combination at
the concrete input `omega = pi/2` with unit velocities and a radius of
`10^9` nanometers. -/
theorem c1_counterexample :
    lambEqn (π / 2) (10 ^ 9) 1 1 3 = .error .unboundLocal ∧
      lambEqn (π / 2) (10 ^ 9) 1 1 1 ≠
        .ok (some (lambEqnSpecGeneral (π / 2) (10 ^ 9) 1 1 1)) := by
  constructor
  · unfold lambEqn
    dsimp only
    rw [if_neg (by norm_num : (1 : ℝ) ≠ 0), if_neg (by norm_num : (1 : ℝ) ≠ 0)]
    rw [besselFn_order3 _ (by positivity), exceptBindOk]
    rw [besselFn_big_order (3 + 1) _ (by norm_num), exceptBindErr]
  · have hxi : π / 2 * ((10 ^ 9 : ℝ) / 10 ^ 9) / 1 ≠ 0 := by positivity
    have hjx : jSpec 1 (π / 2 * ((10 ^ 9 : ℝ) / 10 ^ 9) / 1) ≠ 0 := by
      rw [argPiHalf]; exact jSpec_one_pi_half_ne
    have h1 := lambEqn_mode1 (π / 2) (10 ^ 9) 1 1 (by norm_num) (by norm_num)
      hxi hxi hjx hjx
    rw [h1]
    intro hcontra
    have hAB := Option.some.inj (Except.ok.inj hcontra)
    rw [argPiHalf] at hAB
    unfold lambEqnSpecGeneral at hAB
    dsimp only at hAB
    rw [argPiHalf] at hAB
    norm_num at hAB
    rw [jSpec_one_pi_half, jSpec_two_pi_half] at hAB
    have hpi := Real.pi_ne_zero
    have hA : 4 * (24 / π ^ 3 - 2 / π) / (4 / π ^ 2) * (π / 2) - (π / 2) ^ 2 +
        2 * (24 / π ^ 3 - 2 / π) / (4 / π ^ 2) * (π / 2) =
        18 - 7 / 4 * π ^ 2 := by
      field_simp
      ring
    have hB : 4 * ((π / 2) ^ 2 * (4 / π ^ 2)) * (π / 2 * (24 / π ^ 3 - 2 / π)) +
        (-((π / 2) ^ 4 * (4 / π ^ 2)) +
          2 * (π / 2) ^ 2 * (π / 2) * (24 / π ^ 3 - 2 / π)) * (4 / π ^ 2) =
        72 / π ^ 2 - 7 := by
      field_simp
      ring
    rw [hA, hB] at hAB
    have h9 : (9 : ℝ) < π ^ 2 := by nlinarith [Real.pi_gt_three, Real.pi_pos]
    have h99 : π ^ 2 < 9.9225 := by
      nlinarith [Real.pi_lt_d2, Real.pi_pos, Real.pi_gt_three]
    rw [sub_eq_sub_iff_sub_eq_sub] at hAB
    field_simp at hAB
    nlinarith [h9, h99, mul_pos (sub_pos.mpr h9) (sub_pos.mpr h99)]

/-- C1 as amended: for mode 1 the evaluator returns the Bessel-ratio form
`4*j(xi,2)/j(xi,1)*xi - eta^2 + 2*j(eta,2)/j(eta,1)*eta` of the dipolar
equation, which divides by the order-1 Bessel values rather than using the
specification's division-free polynomial combination. -/
theorem c1_mode1_ratio_form (omega radius velLong velTrans : ℝ)
    (hvL : velLong ≠ 0) (hvT : velTrans ≠ 0)
    (hxi : omega * (radius / 10 ^ 9) / velLong ≠ 0)
    (heta : omega * (radius / 10 ^ 9) / velTrans ≠ 0)
    (hjx : jSpec 1 (omega * (radius / 10 ^ 9) / velLong) ≠ 0)
    (hje : jSpec 1 (omega * (radius / 10 ^ 9) / velTrans) ≠ 0) :
    lambEqn omega radius velLong velTrans 1 =
      .ok (some
        (4 * jSpec 2 (omega * (radius / 10 ^ 9) / velLong) /
            jSpec 1 (omega * (radius / 10 ^ 9) / velLong) *
            (omega * (radius / 10 ^ 9) / velLong) -
          (omega * (radius / 10 ^ 9) / velTrans) ^ 2 +
          2 * jSpec 2 (omega * (radius / 10 ^ 9) / velTrans) /
            jSpec 1 (omega * (radius / 10 ^ 9) / velTrans) *
            (omega * (radius / 10 ^ 9) / velTrans))) :=
  lambEqn_mode1 omega radius velLong velTrans hvL hvT hxi heta hjx hje

/-- C1 witness: the dipolar ratio form at the concrete input `pi/2` with
unit velocities. -/
theorem c1_mode1_ratio_form_witness :
    lambEqn (π / 2) (10 ^ 9) 1 1 1 =
      .ok (some
        (4 * jSpec 2 (π / 2 * ((10 ^ 9 : ℝ) / 10 ^ 9) / 1) /
            jSpec 1 (π / 2 * ((10 ^ 9 : ℝ) / 10 ^ 9) / 1) *
            (π / 2 * ((10 ^ 9 : ℝ) / 10 ^ 9) / 1) -
          (π / 2 * ((10 ^ 9 : ℝ) / 10 ^ 9) / 1) ^ 2 +
          2 * jSpec 2 (π / 2 * ((10 ^ 9 : ℝ) / 10 ^ 9) / 1) /
            jSpec 1 (π / 2 * ((10 ^ 9 : ℝ) / 10 ^ 9) / 1) *
            (π / 2 * ((10 ^ 9 : ℝ) / 10 ^ 9) / 1))) := by
  exact c1_mode1_ratio_form (π / 2) (10 ^ 9) 1 1 (by norm_num) (by norm_num)
    (by positivity) (by positivity)
    (by rw [argPiHalf]; exact jSpec_one_pi_half_ne)
    (by rw [argPiHalf]; exact jSpec_one_pi_half_ne)
